import Mathlib

/-!
Verification development for the stepup_prep repository.

Shallow embedding of the three scripts:
* `gen_known_labels.py` — builds the known-labels dictionary from ground truth.
* `prep_stepup.py` — classifies legend features against the dictionary and
  writes annotation-tool JSON.
* `update_stepup.py` — synchronizes legends/images with the remote CDR catalog.

Python strings are modelled as Lean `String`; `str.lower` is modelled
character-wise with `Char.toLower` (faithful on the ASCII labels this
pipeline handles); `line in label` (substring test) is modelled by `pyIn`.
-/

namespace StepUp

/-- ASCII space character, written numerically. -/
def spaceChar : Char := Char.ofNat 32

/-- ASCII underscore character, written numerically. -/
def underscoreChar : Char := Char.ofNat 95

/-- Model of Python `s.lower()` (character-wise ASCII lower-casing). -/
def pyLower (s : String) : String := String.mk (s.toList.map Char.toLower)

/-- Does the list `needle` occur at the head of `haystack`? -/
def startsWith : List Char → List Char → Bool
  | [], _ => true
  | _ :: _, [] => false
  | a :: as, b :: bs => a == b && startsWith as bs

/-- Does `needle` occur contiguously anywhere in `haystack`? -/
def hasSubList (needle : List Char) : List Char → Bool
  | [] => startsWith needle []
  | c :: rest => startsWith needle (c :: rest) || hasSubList needle rest

/-- Model of Python `needle in haystack` on strings (substring containment). -/
def pyIn (needle haystack : String) : Bool :=
  hasSubList needle.toList haystack.toList

/-- Model of the Python replace call turning each space into an underscore
(single-character replace is character-wise). -/
def replaceSpaceUnderscore (s : String) : String :=
  String.mk (s.toList.map (fun c => if c = spaceChar then underscoreChar else c))

/-- `cmaas_utils.types.MapUnitType`: enumeration of feature geometry types. -/
inductive MapUnitType where
  | POINT
  | LINE
  | POLYGON
  | UNKNOWN
deriving DecidableEq

/-- Modelled from the spec: `MapUnitType.to_str` lives in the external
`cmaas_utils` library (not part of this repository); the spec only requires a
distinct per-type name used as a label suffix. -/
def MapUnitType.to_str : MapUnitType → String
  | .POINT => "point"
  | .LINE => "line"
  | .POLYGON => "polygon"
  | .UNKNOWN => "unknown"

/-- `cmaas_utils.types.MapUnit`: one legend entry.  Bounding boxes and
description regions are pixel-space point lists; fields the scripts never read
are omitted. -/
structure MapUnit where
  label : String
  abbreviation : String
  type : MapUnitType
  label_bbox : List (Int × Int)
  description : Option (List (Int × Int))
deriving DecidableEq

/-- `cmaas_utils.types.Provenance`. -/
structure Provenance where
  name : String
  version : String
deriving DecidableEq

/-- `cmaas_utils.types.Legend`: provenance plus an ordered feature list. -/
structure Legend where
  provenance : Provenance
  features : List MapUnit
deriving DecidableEq

/-- The known-labels dictionary (`true_labels` in the scripts): one bucket of
lowercase label strings per geometry class. -/
structure KnownLabels where
  Points : List String
  Lines : List String
  Polygons : List String
  Unknown : List String
deriving DecidableEq

/-- Classification reason recorded into `stat_dict` by `prep_stepup.main`
(which bucket of the statistics dictionary the label is appended to; for a
likely line the matched keyword is what gets recorded). -/
inductive Reason where
  | exactPoint
  | exactLine
  | exactPolygon
  | likelyPolygonShort
  | likelyLineSub (keyword : String)
  | unknownLabel
deriving DecidableEq

/-- The decision cascade of `prep_stepup.main` (lines 128-161) on an already
preprocessed label: exact membership in Points, then Lines, then Polygons;
otherwise the short-label rule (raw length below 5); otherwise the first
known line keyword occurring as a substring of the lowercased label;
otherwise Unknown. -/
def classify (kl : KnownLabels) (rawLabel : String) : MapUnitType × Reason :=
  let label := pyLower rawLabel
  if label ∈ kl.Points then (.POINT, .exactPoint)
  else if label ∈ kl.Lines then (.LINE, .exactLine)
  else if label ∈ kl.Polygons then (.POLYGON, .exactPolygon)
  else if rawLabel.length < 5 then (.POLYGON, .likelyPolygonShort)
  else
    match kl.Lines.find? (fun line => pyIn line label) with
    | some line => (.LINE, .likelyLineSub line)
    | none => (.UNKNOWN, .unknownLabel)

/-- Preprocessing of `prep_stepup.main` (lines 121-123): an empty label is
replaced by the abbreviation, and the type is reset to UNKNOWN. -/
def preprocessFeature (f : MapUnit) : MapUnit :=
  let f1 := if f.label = "" then { f with label := f.abbreviation } else f
  { f1 with type := MapUnitType.UNKNOWN }

/-- One iteration of the feature loop of `prep_stepup.main` (lines 120-161):
preprocess, then assign the type chosen by the decision cascade. -/
def processFeature (kl : KnownLabels) (f0 : MapUnit) : MapUnit :=
  let f := preprocessFeature f0
  let label := pyLower f.label
  if label ∈ kl.Points then { f with type := .POINT }
  else if label ∈ kl.Lines then { f with type := .LINE }
  else if label ∈ kl.Polygons then { f with type := .POLYGON }
  else if f.label.length < 5 then { f with type := .POLYGON }
  else
    match kl.Lines.find? (fun line => pyIn line label) with
    | some _ => { f with type := .LINE }
    | none => { f with type := .UNKNOWN }

/-- Body of the feature loop including the append to
`output_legend.features`: every branch of the source appends the processed
feature exactly once. -/
def loopBody (kl : KnownLabels) (acc : List MapUnit) (f : MapUnit) : List MapUnit :=
  acc ++ [processFeature kl f]

/-- The feature loop of `prep_stepup.main` over one legend, accumulating
`output_legend.features`. -/
def mainLoop (kl : KnownLabels) (features : List MapUnit) : List MapUnit :=
  features.foldl (loopBody kl) []

/-- Per-legend processing of `prep_stepup.main` (lines 118-162): a fresh
output legend with label_me provenance whose features come from the loop. -/
def processLegend (kl : KnownLabels) (lg : Legend) : Legend :=
  { provenance := { name := "label_me", version := "0.0.2" }
    features := mainLoop kl lg.features }

/-- The end-to-end scenario dictionary of spec §8. -/
def klC1 : KnownLabels := ⟨["spring"], ["fault"], ["qal"], []⟩

/-- The five scenario labels of spec §8. -/
def labelsC1 : List String := ["Spring", "Normal Fault", "Qal", "Xyz", "AB"]

/-- One iteration of the label-scanning loop of `gen_known_labels.main`
(lines 66-75): append the lowercased label to the bucket named after the
feature type, anything other than Point, Line, Polygon going to Unknown. -/
def appendLabel (tl : KnownLabels) (f : MapUnit) : KnownLabels :=
  if f.type = .POINT then { tl with Points := tl.Points ++ [pyLower f.label] }
  else if f.type = .LINE then { tl with Lines := tl.Lines ++ [pyLower f.label] }
  else if f.type = .POLYGON then { tl with Polygons := tl.Polygons ++ [pyLower f.label] }
  else { tl with Unknown := tl.Unknown ++ [pyLower f.label] }

/-- The full scan of `gen_known_labels.main` over every feature of every
input legend (each legend given by its feature list). -/
def scanLegends (legends : List (List MapUnit)) : KnownLabels :=
  legends.foldl (fun tl feats => feats.foldl appendLabel tl) ⟨[], [], [], []⟩

/-- The manually added line keywords of `gen_known_labels.main` (line 78). -/
def known_lines : List String :=
  ["monocline", "syncline", "anticline", "antiform", "synform"]

/-- `gen_known_labels.main` end to end: scan, append the manual line
keywords to the Lines bucket, then deduplicate every bucket. -/
def genKnownLabels (legends : List (List MapUnit)) : KnownLabels :=
  let t1 := scanLegends legends
  let t2 := { t1 with Lines := t1.Lines ++ known_lines }
  ⟨t2.Points.dedup, t2.Lines.dedup, t2.Polygons.dedup, t2.Unknown.dedup⟩

/-- The lowercased labels of the features of one legend having a given type,
in input order. -/
def bucketLabels (t : MapUnitType) (feats : List MapUnit) : List String :=
  feats.filterMap (fun f => if f.type = t then some (pyLower f.label) else none)

/-- The lowercased labels of a given type across a whole corpus. -/
def typeLabels (t : MapUnitType) (legends : List (List MapUnit)) : List String :=
  bucketLabels t legends.flatten

/-- One shape record of the StepUp annotation-tool JSON schema
(`flags` is always the empty object and is omitted). -/
structure Shape where
  label : String
  points : List (Int × Int)
  group_id : Option Nat
  shape_type : String
deriving DecidableEq

/-- The flags object of the StepUp annotation-tool JSON. -/
structure StepUpFlags where
  source : String
deriving DecidableEq

/-- The StepUp annotation-tool JSON document written by
`prep_stepup.saveSteupUpJson`. -/
structure StepUpJson where
  version : String
  flags : StepUpFlags
  shapes : List Shape
deriving DecidableEq

/-- One iteration of the shape loop of `prep_stepup.saveSteupUpJson`
(lines 65-74): replace spaces by underscores in the unit label, suffix the
type name unless the type is UNKNOWN, append the label-bbox rectangle shape,
and, when a description region exists, a second rectangle shape with the
desc suffix. -/
def shapeAppend (acc : List Shape) (mu : MapUnit) : List Shape :=
  let lbl := replaceSpaceUnderscore mu.label
  let unit_label := if mu.type = .UNKNOWN then lbl else lbl ++ "_" ++ mu.type.to_str
  let acc1 := acc ++ [⟨unit_label, mu.label_bbox, none, "rectangle"⟩]
  match mu.description with
  | some d => acc1 ++ [⟨unit_label ++ "_desc", d, none, "rectangle"⟩]
  | none => acc1

/-- `prep_stepup.saveSteupUpJson` (lines 60-77): version 5.0.1, StepUp
source flag, and the accumulated shape list. -/
def saveSteupUpJson (legend : Legend) : StepUpJson :=
  { version := "5.0.1"
    flags := { source := "StepUp" }
    shapes := legend.features.foldl shapeAppend [] }

/-- The shape records the spec prescribes for one unit: one rectangle shape
whose label carries the type suffix except for UNKNOWN, then, when a
description region exists, one rectangle shape with the desc suffix. -/
def shapesOfUnit (mu : MapUnit) : List Shape :=
  let lbl := replaceSpaceUnderscore mu.label
  let base := if mu.type = .UNKNOWN then lbl else lbl ++ "_" ++ mu.type.to_str
  Shape.mk base mu.label_bbox none "rectangle" ::
    (match mu.description with
     | some d => [Shape.mk (base ++ "_desc") d none "rectangle"]
     | none => [])

/-- One row of the inventory CSV read by `update_stepup.main` (only the two
columns the script uses; rows with a blank completed cell are dropped by the
notna filter before the loop). -/
structure InvRow where
  proddesc : String
  label_completed : String
deriving DecidableEq

/-- One validated legend item returned by the CDR
(`cdr_schemas.LegendItemResponse`); for the synchronization claims only the
presence of items matters, so a single representative field is kept. -/
structure LegendItem where
  label : String
deriving DecidableEq

/-- Outcome of the raw HTTP GET inside `download_ngmdb_tif`: either the
request raises, or it returns a status code and body bytes. -/
inductive HttpImage where
  | raised
  | resp (status : Nat) (content : List Nat)
deriving DecidableEq

/-- Oracle for the remote CDR calls of one synchronization run: the cog-url
lookup for an ngmdb id (`retrieve_cog_id`, an exception or a url), the
legend-item fetch-and-validate for a cog id (`retrieve_cog_legend_items`
plus validation, an exception or an item list), and the raw image GET. -/
structure CdrWorld where
  cog_lookup : String → Except Unit String
  legend_items : String → Except Unit (List LegendItem)
  image_get : String → HttpImage

/-- Local filesystem state: which map ids have a legends/stepup_id.json file
and which have an images/stepup_id.tif file. -/
structure FS where
  legends : List String
  images : List String
deriving DecidableEq

/-- An uncaught Python exception terminating `update_stepup.main`: an HTTP
or validation error raised outside the one try block, or the TypeError from
writing a None image body. -/
inductive RunError where
  | httpError
  | typeError
deriving DecidableEq

/-- Python `s.split(c)` on a character list. -/
def splitChar (c : Char) : List Char → List (List Char)
  | [] => [[]]
  | a :: rest =>
    let r := splitChar c rest
    if a == c then [] :: r
    else (a :: r.headD []) :: r.tail

/-- The cog id extraction of `update_stepup.main` (line 240):
split the url on slash, take the last component, split it on dot, take the
first component. -/
def cogIdOf (url : String) : String :=
  String.mk ((splitChar '.' ((splitChar '/' url.toList).getLastD [])).headD [])

/-- `update_stepup.download_ngmdb_tif` (lines 144-151): a raised GET
propagates; a non-200 status is logged and None is returned; otherwise the
body bytes are returned. -/
def download_ngmdb_tif (w : CdrWorld) (url : String) : Except Unit (Option (List Nat)) :=
  match w.image_get url with
  | .raised => .error ()
  | .resp status content => if status ≠ 200 then .ok none else .ok (some content)

/-- The image half of the row body (`update_stepup.main` lines 259-264): if
the tif is absent, download it; a raised GET propagates as an uncaught
exception with the filesystem unchanged; a None body still creates the tif
file (open succeeds) before write(None) raises TypeError; bytes are written
normally. -/
def imageStep (w : CdrWorld) (fs : FS) (bad : List String) (id url : String) :
    Except (FS × RunError) (FS × List String) :=
  if id ∈ fs.images then .ok (fs, bad)
  else
    match download_ngmdb_tif w url with
    | .error _ => .error (fs, .httpError)
    | .ok none => .error ({ fs with images := fs.images ++ [id] }, .typeError)
    | .ok (some _) => .ok ({ fs with images := fs.images ++ [id] }, bad)

/-- One inventory row of `update_stepup.main` (lines 222-264): skip when not
label-completed or when both files exist; the cog lookup is the only remote
call inside a try block (failure records the id and continues); a
legend-fetch exception propagates; an empty item list records the id and
continues; otherwise the legend file is written and the image step runs. -/
def processRow (w : CdrWorld) (fs : FS) (bad : List String) (row : InvRow) :
    Except (FS × RunError) (FS × List String) :=
  if row.label_completed ≠ "1" then .ok (fs, bad)
  else if row.proddesc ∈ fs.legends ∧ row.proddesc ∈ fs.images then .ok (fs, bad)
  else
    match w.cog_lookup row.proddesc with
    | .error _ => .ok (fs, bad ++ [row.proddesc])
    | .ok cog_url =>
      if row.proddesc ∈ fs.legends then imageStep w fs bad row.proddesc cog_url
      else
        match w.legend_items (cogIdOf cog_url) with
        | .error _ => .error (fs, .httpError)
        | .ok items =>
          if items.length = 0 then .ok (fs, bad ++ [row.proddesc])
          else
            imageStep w { fs with legends := fs.legends ++ [row.proddesc] } bad
              row.proddesc cog_url

/-- The row loop of `update_stepup.main`: an uncaught exception aborts the
whole batch, otherwise state and bad ids thread to the next row. -/
def runRows (w : CdrWorld) :
    FS → List String → List InvRow → Except (FS × RunError) (FS × List String)
  | fs, bad, [] => .ok (fs, bad)
  | fs, bad, r :: rest =>
    match processRow w fs bad r with
    | .error e => .error e
    | .ok (fs2, bad2) => runRows w fs2 bad2 rest

/-- A world whose legend-item fetch raises (for the C4 counterexample). -/
def wC4 : CdrWorld :=
  { cog_lookup := fun _ => .ok "https://s3/cog42.cog.tif"
    legend_items := fun _ => .error ()
    image_get := fun _ => .raised }

/-- Two completed inventory rows for the C4 counterexample. -/
def rowsC4 : List InvRow := [⟨"101", "1"⟩, ⟨"102", "1"⟩]

/-- A world whose cog lookup raises and whose legend fetch returns zero
items (for the C4 amended witness). -/
def wC4ok : CdrWorld :=
  { cog_lookup := fun _ => .error ()
    legend_items := fun _ => .ok []
    image_get := fun _ => .raised }

/-- A world where the legend fetch succeeds with one item but the image GET
raises (for the C5 counterexample). -/
def wC5 : CdrWorld :=
  { cog_lookup := fun _ => .ok "https://s3/c7.cog.tif"
    legend_items := fun _ => .ok [⟨"unit a"⟩]
    image_get := fun _ => .raised }

/-- The completed inventory row of the C5 counterexample. -/
def rowC5 : InvRow := ⟨"7", "1"⟩

/-- First of two observably different worlds for the C5 witness. -/
def wSkipA : CdrWorld :=
  { cog_lookup := fun _ => .error ()
    legend_items := fun _ => .error ()
    image_get := fun _ => .raised }

/-- Second of two observably different worlds for the C5 witness. -/
def wSkipB : CdrWorld :=
  { cog_lookup := fun _ => .ok "u"
    legend_items := fun _ => .ok []
    image_get := fun _ => .resp 200 [0] }

/-- If every element of `pre` fails the predicate and `k` satisfies it, the
first match found in `pre ++ k :: post` is `k`. -/
theorem find?_append_first (p : String → Bool) (pre : List String) (k : String)
    (post : List String) (hpre : ∀ q ∈ pre, p q = false) (hk : p k = true) :
    List.find? p (pre ++ k :: post) = some k := by
  induction pre with
  | nil => simp [List.find?, hk]
  | cons a as ih =>
    have ha : p a = false := hpre a (List.mem_cons_self a as)
    simp only [List.cons_append, List.find?, ha]
    exact ih (fun q hq => hpre q (List.mem_cons_of_mem a hq))

/-- The cascade of `classify` after the three exact-match tests all fail. -/
theorem classify_of_not_exact (kl : KnownLabels) (raw : String)
    (hp : pyLower raw ∉ kl.Points) (hl : pyLower raw ∉ kl.Lines)
    (hg : pyLower raw ∉ kl.Polygons) :
    classify kl raw =
      (if raw.length < 5 then (.POLYGON, .likelyPolygonShort)
       else
         match kl.Lines.find? (fun line => pyIn line (pyLower raw)) with
         | some line => (.LINE, .likelyLineSub line)
         | none => (.UNKNOWN, .unknownLabel)) := by
  unfold classify
  rw [if_neg hp, if_neg hl, if_neg hg]

/-- C1 counterexample: with the scenario dictionary, the five labels do NOT
classify to Point, Line, Polygon, Unknown, Polygon — the fourth label, Xyz,
has length 3 < 5 and so falls into the likely-polygon-short case, not
Unknown. -/
theorem scenario_claimed_types_false :
    labelsC1.map (fun l => (classify klC1 l).1) ≠
      [.POINT, .LINE, .POLYGON, .UNKNOWN, .POLYGON] := by decide

/-- C1 (amended): with known labels Points = [spring], Lines = [fault],
Polygons = [qal], the labels Spring, Normal Fault, Qal, Xyz, AB classify to
Point, Line, Polygon, Polygon, Polygon respectively — the short-label rule
fires for both Xyz and AB before the substring scan. -/
theorem scenario_types :
    labelsC1.map (fun l => (classify klC1 l).1) =
      [.POINT, .LINE, .POLYGON, .POLYGON, .POLYGON] := by decide

/-- C2: a label whose lowercasing is exactly present in the Points, Lines or
Polygons bucket is assigned the type of the first matching bucket in the
fixed priority order Points, then Lines, then Polygons, for any dictionary
content. -/
theorem classify_exact_priority (kl : KnownLabels) (raw : String)
    (h : pyLower raw ∈ kl.Points ∨ pyLower raw ∈ kl.Lines ∨ pyLower raw ∈ kl.Polygons) :
    (classify kl raw).1 =
      (if pyLower raw ∈ kl.Points then .POINT
       else if pyLower raw ∈ kl.Lines then .LINE
       else .POLYGON) := by
  unfold classify
  by_cases hp : pyLower raw ∈ kl.Points
  · simp [hp]
  · by_cases hl : pyLower raw ∈ kl.Lines
    · simp [hp, hl]
    · have hg : pyLower raw ∈ kl.Polygons := by tauto
      simp [hp, hl, hg]

/-- Witness for C2: the label X sits in both the Points and the Lines bucket
and resolves to Point, the first bucket in the priority order. -/
theorem classify_exact_priority_witness :
    (classify ⟨["x"], ["x"], [], []⟩ "X").1 =
      (if pyLower "X" ∈ (⟨["x"], ["x"], [], []⟩ : KnownLabels).Points then .POINT
       else if pyLower "X" ∈ (⟨["x"], ["x"], [], []⟩ : KnownLabels).Lines then .LINE
       else .POLYGON) :=
  classify_exact_priority ⟨["x"], ["x"], [], []⟩ "X" (Or.inl (by decide))

/-- C3: for a label not exactly present in any known bucket: raw length
below 5 gives Polygon (likely-polygon-short) without any substring scan;
length at least 5 with some Lines entry occurring as a substring of the
lowercased label gives Line at the first matching keyword of the Lines list;
and length at least 5 with no Lines entry occurring as a substring gives
Unknown. -/
theorem classify_fallback (kl : KnownLabels) (raw : String)
    (hp : pyLower raw ∉ kl.Points) (hl : pyLower raw ∉ kl.Lines)
    (hg : pyLower raw ∉ kl.Polygons) :
    (raw.length < 5 → classify kl raw = (.POLYGON, .likelyPolygonShort)) ∧
    (∀ pre k post, 5 ≤ raw.length → kl.Lines = pre ++ k :: post →
      (∀ q ∈ pre, pyIn q (pyLower raw) = false) → pyIn k (pyLower raw) = true →
      classify kl raw = (.LINE, .likelyLineSub k)) ∧
    (5 ≤ raw.length → (∀ q ∈ kl.Lines, pyIn q (pyLower raw) = false) →
      classify kl raw = (.UNKNOWN, .unknownLabel)) := by
  have e := classify_of_not_exact kl raw hp hl hg
  refine ⟨fun h5 => ?_, fun pre k post h5 hEq hpre hk => ?_, fun h5 hall => ?_⟩
  · rw [e, if_pos h5]
  · rw [e, if_neg (by omega), hEq,
      find?_append_first (fun line => pyIn line (pyLower raw)) pre k post hpre hk]
  · have hnone : kl.Lines.find? (fun line => pyIn line (pyLower raw)) = none := by
      rw [List.find?_eq_none]
      intro x hx
      simp [hall x hx]
    rw [e, if_neg (by omega), hnone]

/-- Witness for C3: with Lines = [fault], the label Normal Fault (length 12,
not exactly known) classifies to Line with matched keyword fault. -/
theorem classify_fallback_witness :
    classify ⟨[], ["fault"], [], []⟩ "Normal Fault" = (.LINE, .likelyLineSub "fault") :=
  (classify_fallback ⟨[], ["fault"], [], []⟩ "Normal Fault" (by decide) (by decide)
      (by decide)).2.1 [] "fault" [] (by decide) rfl (by decide) (by decide)

/-- The loop body sets exactly the type chosen by the decision cascade on the
preprocessed feature. -/
theorem processFeature_eq (kl : KnownLabels) (f : MapUnit) :
    processFeature kl f =
      { preprocessFeature f with
        type := (classify kl (preprocessFeature f).label).1 } := by
  by_cases h1 : pyLower (preprocessFeature f).label ∈ kl.Points
  · simp [processFeature, classify, h1]
  · by_cases h2 : pyLower (preprocessFeature f).label ∈ kl.Lines
    · simp [processFeature, classify, h1, h2]
    · by_cases h3 : pyLower (preprocessFeature f).label ∈ kl.Polygons
      · simp [processFeature, classify, h1, h2, h3]
      · by_cases h4 : (preprocessFeature f).label.length < 5
        · simp [processFeature, classify, h1, h2, h3, h4]
        · cases hf :
            kl.Lines.find? (fun line => pyIn line (pyLower (preprocessFeature f).label)) <;>
            simp [processFeature, classify, h1, h2, h3, h4, hf]

/-- C6: preprocessing substitutes the abbreviation for an empty label, resets
the type to UNKNOWN unconditionally, and consequently the type a feature
carries on entry never influences the processing result. -/
theorem preprocess_reset_and_independence (kl : KnownLabels) (f : MapUnit) (t : MapUnitType) :
    (preprocessFeature f).label = (if f.label = "" then f.abbreviation else f.label) ∧
    (preprocessFeature f).type = .UNKNOWN ∧
    processFeature kl { f with type := t } = processFeature kl f := by
  have hpre : preprocessFeature { f with type := t } = preprocessFeature f := by
    cases f with
    | mk label abbreviation ty bbox desc =>
      by_cases h : label = "" <;> simp [preprocessFeature, h]
  refine ⟨?_, ?_, ?_⟩
  · by_cases h : f.label = "" <;> simp [preprocessFeature, h]
  · simp [preprocessFeature]
  · rw [processFeature_eq, processFeature_eq, hpre]

/-- Folding the per-feature append over a feature list maps the per-feature
processing across it. -/
theorem foldl_loopBody (kl : KnownLabels) (fs : List MapUnit) (acc : List MapUnit) :
    fs.foldl (loopBody kl) acc = acc ++ fs.map (processFeature kl) := by
  induction fs generalizing acc with
  | nil => simp
  | cons a as ih => simp [List.foldl, loopBody, ih]

/-- C7: the output legend is fresh (label_me provenance), and every input
feature appears in it exactly once, as its processed form, in input order —
in particular units classified UNKNOWN are not filtered out. -/
theorem output_retains_all (kl : KnownLabels) (lg : Legend) :
    (processLegend kl lg).features = lg.features.map (processFeature kl) ∧
    (processLegend kl lg).features.length = lg.features.length ∧
    (processLegend kl lg).provenance = ⟨"label_me", "0.0.2"⟩ := by
  refine ⟨?_, ?_, rfl⟩ <;>
    simp [processLegend, mainLoop, foldl_loopBody]

/-- C10: a feature whose label and abbreviation are both empty is classified
Polygon by the short-label rule (length 0 < 5), never Unknown, provided the
empty string is in no known bucket, and it is still retained by the loop. -/
theorem empty_label_classifies_polygon (kl : KnownLabels) (f : MapUnit)
    (h1 : f.label = "") (h2 : f.abbreviation = "")
    (hp : ("" : String) ∉ kl.Points) (hl : ("" : String) ∉ kl.Lines)
    (hg : ("" : String) ∉ kl.Polygons) :
    (processFeature kl f).type = .POLYGON ∧
    (processFeature kl f).type ≠ .UNKNOWN ∧
    mainLoop kl [f] = [processFeature kl f] := by
  have h0 : pyLower "" = "" := by decide
  have hlab : (preprocessFeature f).label = "" := by
    simp [preprocessFeature, h1, h2]
  have hcl : (classify kl "").1 = .POLYGON := by
    unfold classify
    rw [h0, if_neg hp, if_neg hl, if_neg hg, if_pos (by decide)]
  have htype : (processFeature kl f).type = .POLYGON := by
    rw [processFeature_eq, hlab]
    exact hcl
  refine ⟨htype, ?_, ?_⟩
  · rw [htype]
    intro hc
    cases hc
  · simp [mainLoop, List.foldl, loopBody]

/-- Witness for C10: a feature with empty label and abbreviation against a
dictionary with nonempty buckets comes out Polygon and is retained. -/
theorem empty_label_classifies_polygon_witness :
    (processFeature ⟨["a"], ["b"], ["c"], []⟩ ⟨"", "", .LINE, [], none⟩).type = .POLYGON ∧
    (processFeature ⟨["a"], ["b"], ["c"], []⟩ ⟨"", "", .LINE, [], none⟩).type ≠ .UNKNOWN ∧
    mainLoop ⟨["a"], ["b"], ["c"], []⟩ [⟨"", "", .LINE, [], none⟩] =
      [processFeature ⟨["a"], ["b"], ["c"], []⟩ ⟨"", "", .LINE, [], none⟩] :=
  empty_label_classifies_polygon ⟨["a"], ["b"], ["c"], []⟩ ⟨"", "", .LINE, [], none⟩
    rfl rfl (by decide) (by decide) (by decide)

/-- Folding the bucket append over one feature list appends, per bucket, the
lowercased labels of the features of that type. -/
theorem foldl_appendLabel (feats : List MapUnit) (tl : KnownLabels) :
    feats.foldl appendLabel tl =
      ⟨tl.Points ++ bucketLabels .POINT feats,
       tl.Lines ++ bucketLabels .LINE feats,
       tl.Polygons ++ bucketLabels .POLYGON feats,
       tl.Unknown ++ bucketLabels .UNKNOWN feats⟩ := by
  induction feats generalizing tl with
  | nil => simp [bucketLabels]
  | cons a as ih =>
    rw [List.foldl_cons, ih]
    cases ha : a.type <;>
      simp [appendLabel, bucketLabels, ha, List.filterMap_cons]

/-- The double scanning loop, started from any accumulator. -/
theorem foldl_scan (ls : List (List MapUnit)) (tl : KnownLabels) :
    ls.foldl (fun tl feats => feats.foldl appendLabel tl) tl =
      ⟨tl.Points ++ bucketLabels .POINT ls.flatten,
       tl.Lines ++ bucketLabels .LINE ls.flatten,
       tl.Polygons ++ bucketLabels .POLYGON ls.flatten,
       tl.Unknown ++ bucketLabels .UNKNOWN ls.flatten⟩ := by
  induction ls generalizing tl with
  | nil => simp [bucketLabels]
  | cons a as ih =>
    rw [List.foldl_cons, foldl_appendLabel, ih]
    simp [bucketLabels, List.filterMap_append]

/-- C8: the known-label builder appends the lowercased label of every
feature to the bucket named after its type, in corpus order; lower-casing is
character-wise so leading and trailing whitespace survives; the fixed manual
line keywords are the five fold terms; and each final bucket is the
deduplication of the scanned bucket (with the manual keywords unioned into
Lines), containing each label once. -/
theorem gen_known_labels_spec (ls : List (List MapUnit)) :
    scanLegends ls =
      ⟨typeLabels .POINT ls, typeLabels .LINE ls,
       typeLabels .POLYGON ls, typeLabels .UNKNOWN ls⟩ ∧
    (∀ s : String, (pyLower s).toList = s.toList.map Char.toLower) ∧
    Char.toLower spaceChar = spaceChar ∧
    known_lines = ["monocline", "syncline", "anticline", "antiform", "synform"] ∧
    (∀ x, x ∈ (genKnownLabels ls).Points ↔ x ∈ (scanLegends ls).Points) ∧
    (∀ x, x ∈ (genKnownLabels ls).Lines ↔
      (x ∈ (scanLegends ls).Lines ∨ x ∈ known_lines)) ∧
    (∀ x, x ∈ (genKnownLabels ls).Polygons ↔ x ∈ (scanLegends ls).Polygons) ∧
    (∀ x, x ∈ (genKnownLabels ls).Unknown ↔ x ∈ (scanLegends ls).Unknown) ∧
    (genKnownLabels ls).Points.Nodup ∧ (genKnownLabels ls).Lines.Nodup ∧
    (genKnownLabels ls).Polygons.Nodup ∧ (genKnownLabels ls).Unknown.Nodup := by
  refine ⟨?_, fun s => rfl, by decide, rfl, ?_, ?_, ?_, ?_, ?_, ?_, ?_, ?_⟩
  · rw [scanLegends, foldl_scan]
    simp [typeLabels]
  all_goals
    simp [genKnownLabels, List.mem_dedup, List.mem_append, List.nodup_dedup]

/-- Appending the shape records of one unit to the accumulator. -/
theorem shapeAppend_eq (acc : List Shape) (mu : MapUnit) :
    shapeAppend acc mu = acc ++ shapesOfUnit mu := by
  cases hd : mu.description <;> simp [shapeAppend, shapesOfUnit, hd]

/-- Folding the shape append over a feature list concatenates the per-unit
shape records in order. -/
theorem foldl_shapeAppend (fs : List MapUnit) (acc : List Shape) :
    fs.foldl shapeAppend acc = acc ++ (fs.map shapesOfUnit).flatten := by
  induction fs generalizing acc with
  | nil => simp
  | cons a as ih => simp [List.foldl_cons, shapeAppend_eq, ih]

/-- C9: the saved document has version 5.0.1 and source flag StepUp, and its
shape list is, unit by unit in order, one rectangle shape labeled with the
space-to-underscore label plus the type suffix (omitted for UNKNOWN),
followed, when a description region exists, by a rectangle shape with the
desc suffix. -/
theorem save_stepup_json_spec (lg : Legend) :
    (saveSteupUpJson lg).version = "5.0.1" ∧
    (saveSteupUpJson lg).flags.source = "StepUp" ∧
    (saveSteupUpJson lg).shapes = (lg.features.map shapesOfUnit).flatten := by
  refine ⟨rfl, rfl, ?_⟩
  simp [saveSteupUpJson, foldl_shapeAppend]

/-- C4 counterexample: with the legend-item fetch raising, the failure of
the first row aborts the whole batch (the second row is never processed), instead
of recording id 101 in the bad-ids collection and continuing. -/
theorem remote_failure_aborts_batch :
    runRows wC4 ⟨[], []⟩ [] rowsC4 = .error (⟨[], []⟩, .httpError) ∧
    ∀ res : FS × List String, runRows wC4 ⟨[], []⟩ [] rowsC4 ≠ .ok res := by
  refine ⟨rfl, fun res h => ?_⟩
  rw [show runRows wC4 ⟨[], []⟩ [] rowsC4 = .error (⟨[], []⟩, .httpError) from rfl] at h
  exact Except.noConfusion h

/-- C4 (amended): only a cog-lookup failure or an empty legend-item result
records the id of the row in the bad-ids collection and lets the batch continue;
a legend-item fetch exception aborts the batch instead. -/
theorem per_row_failure_policy (w : CdrWorld) (fs : FS) (bad : List String)
    (row : InvRow) (hc : row.label_completed = "1")
    (hnb : ¬(row.proddesc ∈ fs.legends ∧ row.proddesc ∈ fs.images)) :
    (w.cog_lookup row.proddesc = .error () →
      processRow w fs bad row = .ok (fs, bad ++ [row.proddesc])) ∧
    (∀ url, w.cog_lookup row.proddesc = .ok url → row.proddesc ∉ fs.legends →
      w.legend_items (cogIdOf url) = .ok [] →
      processRow w fs bad row = .ok (fs, bad ++ [row.proddesc])) ∧
    (∀ url, w.cog_lookup row.proddesc = .ok url → row.proddesc ∉ fs.legends →
      w.legend_items (cogIdOf url) = .error () →
      processRow w fs bad row = .error (fs, .httpError)) ∧
    (∀ rest fs2 bad2, processRow w fs bad row = .ok (fs2, bad2) →
      runRows w fs bad (row :: rest) = runRows w fs2 bad2 rest) := by
  have hcc : ¬(row.label_completed ≠ "1") := by simp [hc]
  refine ⟨fun hcog => ?_, fun url hcog hnl hitems => ?_, fun url hcog hnl hitems => ?_,
    fun rest fs2 bad2 hpr => ?_⟩
  · rw [processRow, if_neg hcc, if_neg hnb, hcog]
  · rw [processRow, if_neg hcc, if_neg hnb, hcog]
    simp only [if_neg hnl, hitems]
    rfl
  · rw [processRow, if_neg hcc, if_neg hnb, hcog]
    simp only [if_neg hnl, hitems]
  · rw [runRows, hpr]

/-- Witness for the amended C4: a failing cog lookup on a fresh directory
records the row id and yields a normal (non-aborting) result. -/
theorem per_row_failure_policy_witness :
    processRow wC4ok ⟨[], []⟩ [] ⟨"7", "1"⟩ = .ok (⟨[], []⟩, [] ++ ["7"]) :=
  (per_row_failure_policy wC4ok ⟨[], []⟩ [] ⟨"7", "1"⟩ rfl (by decide)).1 rfl

/-- C5 counterexample: starting from an empty data directory, a run whose
legend fetch succeeds but whose image GET raises ends with the legend file
of id 7 present and its image file absent — the legend/image pair is left in
a one-sided state. -/
theorem legend_without_image_left_behind :
    runRows wC5 ⟨[], []⟩ [] [rowC5] = .error (⟨["7"], []⟩, .httpError) ∧
    "7" ∈ (FS.mk ["7"] []).legends ∧ "7" ∉ (FS.mk ["7"] []).images :=
  ⟨rfl, by decide, by decide⟩

/-- C5 (amended): a row whose legend and image files both already exist is
skipped with no state change and, in particular, before any remote call —
the result does not depend on the remote world at all. -/
theorem both_files_skip_before_remote (w w2 : CdrWorld) (fs : FS)
    (bad : List String) (row : InvRow)
    (h1 : row.proddesc ∈ fs.legends) (h2 : row.proddesc ∈ fs.images) :
    processRow w fs bad row = .ok (fs, bad) ∧
    processRow w fs bad row = processRow w2 fs bad row := by
  by_cases hc : row.label_completed ≠ "1"
  · rw [processRow, processRow, if_pos hc, if_pos hc]
    exact ⟨rfl, rfl⟩
  · rw [processRow, processRow, if_neg hc, if_neg hc, if_pos ⟨h1, h2⟩, if_pos ⟨h1, h2⟩]
    exact ⟨rfl, rfl⟩

/-- Witness for the amended C5: a row with both files present is skipped
identically under two worlds whose every remote answer differs. -/
theorem both_files_skip_before_remote_witness :
    processRow wSkipA ⟨["9"], ["9"]⟩ ["x"] ⟨"9", "1"⟩ = .ok (⟨["9"], ["9"]⟩, ["x"]) ∧
    processRow wSkipA ⟨["9"], ["9"]⟩ ["x"] ⟨"9", "1"⟩ =
      processRow wSkipB ⟨["9"], ["9"]⟩ ["x"] ⟨"9", "1"⟩ :=
  both_files_skip_before_remote wSkipA wSkipB ⟨["9"], ["9"]⟩ ["x"] ⟨"9", "1"⟩
    (by decide) (by decide)

end StepUp
